import Mathlib

/-!
Verification of the Borealis reconciliation core: a shallow embedding of
`src/services/repository.py`, `src/services/stats_aggregator.py` and
`src/services/sync_scheduler.py`, together with theorems settling the
spec claims about them.

Conventions of the embedding:
* Python epoch timestamps are `Nat`; `time.time()` is passed in
  explicitly as a `now` argument, because the code always samples it once
  per repository call.
* Input dictionaries (`data.get(key)` / `data.get(key, default)`) are
  structures of `Option` fields: `none` models an absent key, and
  `Option.getD` models `dict.get(key, default)`.
* SQLAlchemy tables are Lean lists of row structures;
  `query.filter_by(...).first()` is `List.find?`, in-place mutation of the
  row found by a query is `updateFirst`, and a bulk
  `query.filter(...).update(...)` is a `List.map` guarded by the filter
  predicate together with a `countP` for the returned row count.
* Python truthiness of a string (`if not jf_id`) is `truthyStr`:
  both `None` and `""` are falsy.
-/

namespace Borealis

/-- Replace the first element of the list satisfying `p` by its image
under `f`, leaving all other elements in place.  This models SQLAlchemy
ORM attribute assignment on the single row returned by
`query.filter_by(...).first()`. -/
def updateFirst (p : α → Bool) (f : α → α) : List α → List α
  | [] => []
  | x :: xs => if p x then f x :: xs else x :: updateFirst p f xs

/-- Python truthiness of an optional string: `None` and `""` are falsy. -/
def truthyStr : Option String → Bool
  | none => false
  | some s => !(s == "")

/-! ## Data model (rows)

The ORM entity classes live in `services/data_models.py`, which is not
part of the sources here; the row shapes below are modelled from the
spec's data-model section (§3) and from the constructor calls in
`repository.py` / the attribute accesses in `stats_aggregator.py`. -/

/-- Modelled from the spec: the `User` entity of `services/data_models.py`
(external id, display name, `is_admin` flag, denormalized `total_plays`,
archived flag, timestamps). -/
structure UserRow where
  jellyfin_id : String
  name : String
  is_admin : Bool
  total_plays : Nat
  archived : Bool
  created_at : Nat
  updated_at : Nat
deriving Repr, DecidableEq

/-- Modelled from the spec: the `Library` entity (local id, external id,
name, type, image url, operator-controlled `tracked` flag, denormalized
`total_plays`, archived flag, timestamps). -/
structure LibraryRow where
  id : Nat
  jellyfin_id : String
  name : String
  type : Option String
  image_url : Option String
  tracked : Bool
  total_plays : Nat
  archived : Bool
  created_at : Nat
  updated_at : Nat
deriving Repr, DecidableEq

/-- Modelled from the spec: the `Item` entity (external id, owning
library's local id, optional parent external id, name, type, denormalized
`play_count`, archived flag, timestamps). -/
structure ItemRow where
  jellyfin_id : String
  library_id : Nat
  parent_id : Option String
  name : String
  type : Option String
  play_count : Nat
  archived : Bool
  created_at : Nat
  updated_at : Nat
deriving Repr, DecidableEq

/-- Modelled from the spec: the `PlaybackActivity` entity (append-only
event row; no external id, no archived flag). -/
structure ActivityRow where
  user_id : String
  item_id : String
  device_name : Option String
  client : Option String
  remote_endpoint : Option String
  activity_at : Nat
  duration_s : Nat
  username_denorm : Option String
deriving Repr, DecidableEq

/-- Modelled from the spec: the `TaskLog` entity (id, name, type,
execution type, `started_at`, nullable `finished_at`, `duration_ms`,
`result` string, optional serialized `log_json`). -/
structure TaskLogRow where
  id : Nat
  name : String
  type : String
  execution_type : String
  started_at : Nat
  finished_at : Option Nat
  duration_ms : Int
  result : String
  log_json : Option String
deriving Repr, DecidableEq

/-! ## Input dictionaries -/

/-- A user dictionary handed to `Repository.upsert_users`; every field is
optional because the code reads each with `data.get`. -/
structure UserDict where
  jellyfin_id : Option String := none
  name : Option String := none
  is_admin : Option Bool := none
deriving Repr, DecidableEq

/-- A library dictionary handed to `Repository.upsert_libraries`. -/
structure LibraryDict where
  jellyfin_id : Option String := none
  name : Option String := none
  type : Option String := none
  image_url : Option String := none
deriving Repr, DecidableEq

/-- An item dictionary handed to `Repository.upsert_items`. -/
structure ItemDict where
  jellyfin_id : Option String := none
  library_id : Option Nat := none
  parent_id : Option String := none
  name : Option String := none
  type : Option String := none
deriving Repr, DecidableEq

/-- An event dictionary handed to `Repository.insert_playback_events`. -/
structure EventDict where
  user_id : Option String := none
  item_id : Option String := none
  device_name : Option String := none
  client : Option String := none
  remote_endpoint : Option String := none
  activity_at : Option Nat := none
  duration_s : Option Nat := none
  username_denorm : Option String := none
deriving Repr, DecidableEq

/-! ## Repository.upsert_users (repository.py lines 51-89) -/

/-- The found-branch of the upsert loop body: overwrite `name` and
`is_admin` only when present in the dictionary (`data.get(k, old)`),
force `archived = False`, bump `updated_at`. -/
def applyUserDict (now : Nat) (d : UserDict) (u : UserRow) : UserRow :=
  { u with
    name := d.name.getD u.name
    is_admin := d.is_admin.getD u.is_admin
    archived := false
    updated_at := now }

/-- The not-found branch: a fresh `User(...)` row with the defaults used
by the constructor call in `upsert_users`. -/
def newUserRow (now : Nat) (jf : String) (d : UserDict) : UserRow :=
  { jellyfin_id := jf
    name := d.name.getD "Unknown"
    is_admin := d.is_admin.getD false
    total_plays := 0
    archived := false
    created_at := now
    updated_at := now }

/-- One iteration of the `for data in user_dicts` loop of
`upsert_users`, acting on the in-session table and the running count. -/
def upsertUsersStep (now : Nat) (st : List UserRow × Nat) (d : UserDict) :
    List UserRow × Nat :=
  match d.jellyfin_id with
  | none => st
  | some jf =>
    if jf == "" then st
    else
      match st.1.find? (fun u => u.jellyfin_id == jf) with
      | some _ =>
        (updateFirst (fun u => u.jellyfin_id == jf) (applyUserDict now d) st.1,
         st.2 + 1)
      | none => (st.1 ++ [newUserRow now jf d], st.2 + 1)

/-- `Repository.upsert_users`: returns the committed table and the count
of valid rows processed. -/
def upsert_users (now : Nat) (db : List UserRow) (dicts : List UserDict) :
    List UserRow × Nat :=
  if dicts.isEmpty then (db, 0)
  else dicts.foldl (upsertUsersStep now) (db, 0)

/-! ## Repository.archive_missing_users (repository.py lines 91-107) -/

/-- The bulk-update filter of `archive_missing_users`: rows whose
external id is not in the active list and that are not yet archived. -/
def userArchiveHit (active : List String) (u : UserRow) : Bool :=
  !(active.contains u.jellyfin_id) && !u.archived

/-- `Repository.archive_missing_users`: empty active list is an early
return of 0; otherwise a single bulk update flipping `archived` on every
matching row, returning the SQL row count. -/
def archive_missing_users (db : List UserRow) (active : List String) :
    List UserRow × Nat :=
  if active.isEmpty then (db, 0)
  else
    (db.map fun u =>
       if userArchiveHit active u then { u with archived := true } else u,
     db.countP (userArchiveHit active))

/-! ## Repository.upsert_libraries (repository.py lines 123-166) -/

/-- Found-branch of the `upsert_libraries` loop body. -/
def applyLibraryDict (now : Nat) (d : LibraryDict) (l : LibraryRow) :
    LibraryRow :=
  { l with
    name := d.name.getD l.name
    type := if d.type.isSome then d.type else l.type
    image_url := if d.image_url.isSome then d.image_url else l.image_url
    archived := false
    updated_at := now }

/-- Not-found branch of `upsert_libraries`: fresh `Library(...)` row; the
local autoincrement id is modelled as one past the largest id in the
table. -/
def newLibraryRow (now : Nat) (freshId : Nat) (jf : String)
    (d : LibraryDict) : LibraryRow :=
  { id := freshId
    jellyfin_id := jf
    name := d.name.getD "Unknown"
    type := d.type
    image_url := d.image_url
    tracked := false
    total_plays := 0
    archived := false
    created_at := now
    updated_at := now }

/-- Next autoincrement id for a library table. -/
def nextLibraryId (db : List LibraryRow) : Nat :=
  (db.map LibraryRow.id).foldr max 0 + 1

/-- One iteration of the `for data in library_dicts` loop. -/
def upsertLibrariesStep (now : Nat) (st : List LibraryRow × Nat)
    (d : LibraryDict) : List LibraryRow × Nat :=
  match d.jellyfin_id with
  | none => st
  | some jf =>
    if jf == "" then st
    else
      match st.1.find? (fun l => l.jellyfin_id == jf) with
      | some _ =>
        (updateFirst (fun l => l.jellyfin_id == jf) (applyLibraryDict now d)
           st.1,
         st.2 + 1)
      | none => (st.1 ++ [newLibraryRow now (nextLibraryId st.1) jf d], st.2 + 1)

/-- `Repository.upsert_libraries`. -/
def upsert_libraries (now : Nat) (db : List LibraryRow)
    (dicts : List LibraryDict) : List LibraryRow × Nat :=
  if dicts.isEmpty then (db, 0)
  else dicts.foldl (upsertLibrariesStep now) (db, 0)

/-! ## Repository.upsert_items (repository.py lines 219-261) -/

/-- Found-branch of the `upsert_items` loop body. -/
def applyItemDict (now : Nat) (d : ItemDict) (it : ItemRow) : ItemRow :=
  { it with
    name := d.name.getD it.name
    type := if d.type.isSome then d.type else it.type
    parent_id := if d.parent_id.isSome then d.parent_id else it.parent_id
    archived := false
    updated_at := now }

/-- Not-found branch of `upsert_items`: fresh `Item(...)` row. -/
def newItemRow (now : Nat) (jf : String) (libId : Nat) (d : ItemDict) :
    ItemRow :=
  { jellyfin_id := jf
    library_id := libId
    parent_id := d.parent_id
    name := d.name.getD "Unknown"
    type := d.type
    play_count := 0
    archived := false
    created_at := now
    updated_at := now }

/-- One iteration of the `for data in item_dicts` loop.  A row is skipped
when the external id is falsy (`if not jf_id`) or the library reference is
`None` (`lib_id is None` — note `0` is a valid library id). -/
def upsertItemsStep (now : Nat) (st : List ItemRow × Nat) (d : ItemDict) :
    List ItemRow × Nat :=
  match d.jellyfin_id, d.library_id with
  | none, _ => st
  | some _, none => st
  | some jf, some libId =>
    if jf == "" then st
    else
      match st.1.find? (fun it => it.jellyfin_id == jf) with
      | some _ =>
        (updateFirst (fun it => it.jellyfin_id == jf) (applyItemDict now d)
           st.1,
         st.2 + 1)
      | none => (st.1 ++ [newItemRow now jf libId d], st.2 + 1)

/-- `Repository.upsert_items`. -/
def upsert_items (now : Nat) (db : List ItemRow) (dicts : List ItemDict) :
    List ItemRow × Nat :=
  if dicts.isEmpty then (db, 0)
  else dicts.foldl (upsertItemsStep now) (db, 0)

/-! ## Repository.archive_missing_items (repository.py lines 263-280) -/

/-- The bulk-update filter of `archive_missing_items`: rows of the given
library whose external id is not in the active list and that are not yet
archived. -/
def itemArchiveHit (libraryId : Nat) (active : List String) (it : ItemRow) :
    Bool :=
  it.library_id == libraryId && !(active.contains it.jellyfin_id)
    && !it.archived

/-- `Repository.archive_missing_items`. -/
def archive_missing_items (db : List ItemRow) (libraryId : Nat)
    (active : List String) : List ItemRow × Nat :=
  if active.isEmpty then (db, 0)
  else
    (db.map fun it =>
       if itemArchiveHit libraryId active it then { it with archived := true }
       else it,
     db.countP (itemArchiveHit libraryId active))

/-! ## Repository.insert_playback_events (repository.py lines 284-309) -/

/-- The `PlaybackActivity(...)` constructor call of
`insert_playback_events`: missing `user_id`/`item_id` default to the empty
string, missing `activity_at` defaults to ingestion time, missing
`duration_s` defaults to 0. -/
def eventRowOf (now : Nat) (d : EventDict) : ActivityRow :=
  { user_id := d.user_id.getD ""
    item_id := d.item_id.getD ""
    device_name := d.device_name
    client := d.client
    remote_endpoint := d.remote_endpoint
    activity_at := d.activity_at.getD now
    duration_s := d.duration_s.getD 0
    username_denorm := d.username_denorm }

/-- `Repository.insert_playback_events`: appends one row per input
dictionary, counting every row. -/
def insert_playback_events (now : Nat) (db : List ActivityRow)
    (dicts : List EventDict) : List ActivityRow × Nat :=
  if dicts.isEmpty then (db, 0)
  else dicts.foldl (fun st d => (st.1 ++ [eventRowOf now d], st.2 + 1)) (db, 0)

/-! ## Task logging (repository.py lines 313-358) -/

/-- Next autoincrement id for the task-log table. -/
def nextTaskId (db : List TaskLogRow) : Nat :=
  (db.map TaskLogRow.id).foldr max 0 + 1

/-- `Repository.create_task_log`: inserts a RUNNING row stamped with the
current time and returns its id. -/
def create_task_log (now : Nat) (db : List TaskLogRow)
    (name taskType executionType : String) : List TaskLogRow × Nat :=
  let id := nextTaskId db
  (db ++ [{ id := id
            name := name
            type := taskType
            execution_type := executionType
            started_at := now
            finished_at := none
            duration_ms := 0
            result := "RUNNING"
            log_json := none }],
   id)

/-- `json.dumps` for the structured detail dictionaries passed to
`complete_task_log`; modelled for string-to-integer dictionaries, which is
the shape the spec's examples use. -/
def jsonDumps (d : List (String × Int)) : String :=
  "\x7b" ++
    String.intercalate ", "
      (d.map fun p => "\"" ++ p.1 ++ "\": " ++ toString p.2) ++
  "\x7d"

/-- Python truthiness of the optional `log_data` dictionary: `None` and
the empty dict are falsy (`if log_data:`). -/
def truthyDict : Option (List (String × Int)) → Bool
  | none => false
  | some d => !d.isEmpty

/-- `Repository.complete_task_log`: silent no-op when no row has the id;
otherwise sets `finished_at`, computes `duration_ms` from second-granular
timestamps, sets `result`, and serializes truthy detail into `log_json`. -/
def complete_task_log (now : Nat) (db : List TaskLogRow) (taskId : Nat)
    (result : String) (logData : Option (List (String × Int))) :
    List TaskLogRow :=
  match db.find? (fun t => t.id == taskId) with
  | none => db
  | some _ =>
    updateFirst (fun t => t.id == taskId)
      (fun t =>
        { t with
          finished_at := some now
          duration_ms := ((now : Int) - (t.started_at : Int)) * 1000
          result := result
          log_json :=
            if truthyDict logData then some (jsonDumps (logData.getD []))
            else t.log_json })
      db

/-! ## Repository._session (repository.py lines 36-47)

The context manager commits the session state on normal exit and, on any
exception, rolls the session back (so the committed store is unchanged)
and re-raises.  `withSession` makes that explicit: the first component of
the result is the committed store after the call, the second is either
the operation's return value or the propagated exception. -/

/-- `Repository._session`: commit on success, rollback-and-re-raise on
exception. -/
def withSession (committed : σ) (body : σ → Except Unit (σ × α)) :
    σ × Except Unit α :=
  match body committed with
  | .ok (s, a) => (s, .ok a)
  | .error e => (committed, .error e)

/-- A batch loop body in which individual rows may raise (modelling e.g. a
constraint violation or connection loss while processing that row): each
input row carries a flag saying whether processing it raises. -/
def batchBody (step : σ → ρ → σ) : List (ρ × Bool) → σ → Except Unit σ
  | [], st => .ok st
  | (d, raises) :: rest, st =>
    if raises then .error () else batchBody step rest (step st d)

/-- `Repository.upsert_users` run through `_session` with a fallible
batch: the committed table together with the count or the propagated
exception. -/
def upsert_users_tx (now : Nat) (db : List UserRow)
    (dicts : List (UserDict × Bool)) : List UserRow × Except Unit Nat :=
  withSession db fun s =>
    (batchBody (upsertUsersStep now) dicts (s, 0)).map fun st => (st.1, st.2)

/-- `Repository.upsert_libraries` run through `_session` with a fallible
batch. -/
def upsert_libraries_tx (now : Nat) (db : List LibraryRow)
    (dicts : List (LibraryDict × Bool)) : List LibraryRow × Except Unit Nat :=
  withSession db fun s =>
    (batchBody (upsertLibrariesStep now) dicts (s, 0)).map fun st =>
      (st.1, st.2)

/-- `Repository.upsert_items` run through `_session` with a fallible
batch. -/
def upsert_items_tx (now : Nat) (db : List ItemRow)
    (dicts : List (ItemDict × Bool)) : List ItemRow × Except Unit Nat :=
  withSession db fun s =>
    (batchBody (upsertItemsStep now) dicts (s, 0)).map fun st => (st.1, st.2)

/-! ## StatsAggregator (stats_aggregator.py) -/

/-- The whole store as seen by one StatsAggregator session. -/
structure StatsDB where
  users : List UserRow
  libraries : List LibraryRow
  items : List ItemRow
  activities : List ActivityRow
deriving Repr, DecidableEq

/-- The per-user counting query of `refresh_user_play_counts`. -/
def countUserPlays (acts : List ActivityRow) (jf : String) : Nat :=
  (acts.filter fun a => a.user_id == jf).length

/-- The per-item counting query of `refresh_item_play_counts`. -/
def countItemPlays (acts : List ActivityRow) (jf : String) : Nat :=
  (acts.filter fun a => a.item_id == jf).length

/-- The join-and-count query of `refresh_library_play_counts`: the number
of (activity, item) join rows with `activity.item_id == item.jellyfin_id`
and `item.library_id == lib.id`. -/
def countLibraryPlays (acts : List ActivityRow) (items : List ItemRow)
    (libId : Nat) : Nat :=
  (acts.flatMap fun a =>
    items.filter fun it =>
      a.item_id == it.jellyfin_id && it.library_id == libId).length

/-- `StatsAggregator.refresh_user_play_counts`: the `for user in users`
loop, threading the rewritten table and the `updated` counter. -/
def refresh_user_play_counts (db : StatsDB) : StatsDB × Nat :=
  let r := db.users.foldl
    (fun (st : List UserRow × Nat) u =>
      (st.1 ++ [{ u with total_plays := countUserPlays db.activities u.jellyfin_id }],
       st.2 + 1))
    ([], 0)
  ({ db with users := r.1 }, r.2)

/-- `StatsAggregator.refresh_item_play_counts`. -/
def refresh_item_play_counts (db : StatsDB) : StatsDB × Nat :=
  let r := db.items.foldl
    (fun (st : List ItemRow × Nat) it =>
      (st.1 ++ [{ it with play_count := countItemPlays db.activities it.jellyfin_id }],
       st.2 + 1))
    ([], 0)
  ({ db with items := r.1 }, r.2)

/-- `StatsAggregator.refresh_library_play_counts`. -/
def refresh_library_play_counts (db : StatsDB) : StatsDB × Nat :=
  let r := db.libraries.foldl
    (fun (st : List LibraryRow × Nat) l =>
      (st.1 ++ [{ l with total_plays := countLibraryPlays db.activities db.items l.id }],
       st.2 + 1))
    ([], 0)
  ({ db with libraries := r.1 }, r.2)

/-- `StatsAggregator.refresh_all_stats`: the three refreshes against the
one supplied session, in the evaluation order of the Python dict literal
(users, items, libraries), returning the per-kind updated counts. -/
def refresh_all_stats (db : StatsDB) : StatsDB × (Nat × Nat × Nat) :=
  let ru := refresh_user_play_counts db
  let ri := refresh_item_play_counts ru.1
  let rl := refresh_library_play_counts ri.1
  (rl.1, (ru.2, ri.2, rl.2))

/-! ## SyncScheduler._run_loop (sync_scheduler.py lines 54-101)

One cycle of the loop is embedded as a trace of the remote calls it makes
(each call recorded with the object it is invoked on) together with the
line it prints.  The external `SyncService` is not part of the sources
here; its observable behaviour on one cycle is modelled from the spec as
a `CycleEnv`: what the initial-sync-needed flag returns and what the
chosen sync call returns or raises. -/

/-- Result object returned by the external SyncService sync calls
(modelled from the spec: `success`, `items_synced`, `duration_ms`). -/
structure SyncResult where
  success : Bool
  items_synced : Nat
  duration_ms : Nat
deriving Repr, DecidableEq

/-- The object a remote call is invoked on: the scheduler's
`self.sync_service`, or that service's `repository` attribute. -/
inductive CallTarget where
  | service
  | serviceRepository
deriving Repr, DecidableEq

/-- The method invoked by the scheduler loop body. -/
inductive CallMethod where
  | isInitialActivityLogSyncNeeded
  | syncActivityLogFull
  | syncActivityLogIncremental (minutes_back : Nat)
deriving Repr, DecidableEq

/-- One remote invocation: which object it is made on, and which method. -/
structure SchedCall where
  target : CallTarget
  method : CallMethod
deriving Repr, DecidableEq

deriving instance DecidableEq for Except

/-- Modelled from the spec: what the external SyncService does on one
cycle — the value of the initial-sync-pending flag, and the outcome
(result or raised exception message) of the full and of the incremental
sync call. -/
structure CycleEnv where
  initialNeeded : Bool
  fullOutcome : Except String SyncResult
  incrementalOutcome : Except String SyncResult
deriving Repr, DecidableEq

/-- The line printed for a successful sync attempt. -/
def syncReport (kind : String) (r : SyncResult) : String :=
  kind ++ " activity log sync " ++
    (if r.success then "SUCCESS" else "FAILED") ++ ": " ++
    toString r.items_synced ++ " events (" ++
    toString r.duration_ms ++ "ms)"

/-- One iteration of the `while self._running` body: the calls made (the
initial-needed check is invoked on `self.sync_service.repository`; the
sync calls on `self.sync_service`) and the single line printed — either
the sync report or, when the attempt raises, the caught-and-logged
`Scheduled sync error` line. -/
def run_cycle (env : CycleEnv) : List SchedCall × String :=
  if env.initialNeeded then
    ([⟨.serviceRepository, .isInitialActivityLogSyncNeeded⟩,
      ⟨.service, .syncActivityLogFull⟩],
     match env.fullOutcome with
     | .ok r => syncReport "Initial" r
     | .error e => "Scheduled sync error: " ++ e)
  else
    ([⟨.serviceRepository, .isInitialActivityLogSyncNeeded⟩,
      ⟨.service, .syncActivityLogIncremental 30⟩],
     match env.incrementalOutcome with
     | .ok r => syncReport "Incremental" r
     | .error e => "Scheduled sync error: " ++ e)

/-- The loop while the scheduler is running: one `CycleEnv` per cycle
until a stop request ends the list; yields the per-cycle printed lines in
order. -/
def run_loop (envs : List CycleEnv) : List String :=
  envs.map fun env => (run_cycle env).2

/-- The remote calls made, cycle by cycle, while the scheduler runs. -/
def run_loop_calls (envs : List CycleEnv) : List (List SchedCall) :=
  envs.map fun env => (run_cycle env).1

/-- The exception (if any) raised by the sync attempt of a cycle: the
outcome of whichever sync call the branch selects. -/
def cycleError (env : CycleEnv) : Option String :=
  match (if env.initialNeeded then env.fullOutcome else env.incrementalOutcome) with
  | .ok _ => none
  | .error e => some e

/-! ## Repository task-log operation sequences (for the exactly-once
transition claim) -/

/-- A repository operation touching the task-log table. -/
inductive TaskOp where
  | create (now : Nat) (name taskType executionType : String)
  | complete (now : Nat) (taskId : Nat) (result : String)
      (logData : Option (List (String × Int)))
deriving Repr, DecidableEq

/-- Apply one task-log repository operation to the table. -/
def applyTaskOp (db : List TaskLogRow) : TaskOp → List TaskLogRow
  | .create now n ty ex => (create_task_log now db n ty ex).1
  | .complete now id r l => complete_task_log now db id r l

/-- Whether a task-log operation is a `complete_task_log` call aimed at
the given id. -/
def opCompletes (op : TaskOp) (id : Nat) : Bool :=
  match op with
  | .complete _ taskId _ _ => taskId == id
  | _ => false

/-- The canonical user row produced by upserting a dictionary whose first
insertion happened at time `c` and whose latest touch happened at time
`u`.  Used to describe the store after repeated identical upsert calls. -/
def canonUser (c u : Nat) (d : UserDict) : UserRow :=
  { jellyfin_id := d.jellyfin_id.getD ""
    name := d.name.getD "Unknown"
    is_admin := d.is_admin.getD false
    total_plays := 0
    archived := false
    created_at := c
    updated_at := u }

/-- External id of a user dictionary (empty string when absent). -/
def dictId (d : UserDict) : String :=
  d.jellyfin_id.getD ""

/-! ## Helper lemmas about `updateFirst`, `find?` and accumulating folds -/

theorem updateFirst_append_left {p : α → Bool} {f : α → α} {l₁ : List α}
    (l₂ : List α) (h : ∀ x ∈ l₁, p x = false) :
    updateFirst p f (l₁ ++ l₂) = l₁ ++ updateFirst p f l₂ := by
  induction l₁ with
  | nil => simp [updateFirst]
  | cons a t ih =>
    have ha : p a = false := h a (by simp)
    show updateFirst p f (a :: (t ++ l₂)) = a :: (t ++ updateFirst p f l₂)
    rw [updateFirst, if_neg (by simp [ha]), ih fun x hx => h x (by simp [hx])]

theorem updateFirst_cons_pos {p : α → Bool} {f : α → α} {x : α}
    (l : List α) (h : p x = true) :
    updateFirst p f (x :: l) = f x :: l := by
  simp [updateFirst, h]

theorem find?_updateFirst {p : α → Bool} {f : α → α}
    (hpf : ∀ x, p x = true → p (f x) = true) (l : List α) :
    (updateFirst p f l).find? p = (l.find? p).map f := by
  induction l with
  | nil => simp [updateFirst]
  | cons a t ih =>
    by_cases ha : p a = true
    · simp [updateFirst, ha, List.find?_cons_of_pos, hpf a ha]
    · have ha' : p a = false := by simpa using ha
      simp [updateFirst, ha', List.find?_cons_of_neg, ih]

theorem find?_updateFirst_disjoint {p q : α → Bool} {f : α → α}
    (hpq : ∀ x, p x = true → q x = false)
    (hqf : ∀ x, q (f x) = q x) (l : List α) :
    (updateFirst p f l).find? q = l.find? q := by
  induction l with
  | nil => simp [updateFirst]
  | cons a t ih =>
    by_cases ha : p a = true
    · have hqa : q a = false := hpq a ha
      simp [updateFirst, ha, List.find?_cons_of_neg, hqa, hqf]
    · have ha' : p a = false := by simpa using ha
      by_cases hqa : q a = true
      · simp [updateFirst, ha', List.find?_cons_of_pos, hqa]
      · have hqa' : q a = false := by simpa using hqa
        simp [updateFirst, ha', List.find?_cons_of_neg, hqa', ih]

theorem find?_append_some {p : α → Bool} {l₁ : List α} {a : α}
    (l₂ : List α) (h : l₁.find? p = some a) :
    (l₁ ++ l₂).find? p = some a := by
  simp [List.find?_append, h]

/-- An accumulating append-and-count fold is a map plus a length. -/
theorem foldl_append_count {f : β → α} :
    ∀ (l : List β) (acc : List α) (k : Nat),
      l.foldl (fun st d => (st.1 ++ [f d], st.2 + 1)) (acc, k)
        = (acc ++ l.map f, k + l.length) := by
  intro l
  induction l with
  | nil => intro acc k; simp
  | cons a t ih =>
    intro acc k
    simp only [List.foldl_cons, ih, List.map_cons, List.length_cons]
    rw [Prod.mk.injEq]
    exact ⟨by simp, by omega⟩

theorem batchBody_error (step : σ → ρ → σ) :
    ∀ (dicts : List (ρ × Bool)) (st : σ),
      (∃ p ∈ dicts, p.2 = true) → batchBody step dicts st = .error () := by
  intro dicts
  induction dicts with
  | nil =>
    intro st h
    obtain ⟨p, hp, -⟩ := h
    cases hp
  | cons hd tl ih =>
    intro st h
    obtain ⟨d, raises⟩ := hd
    by_cases hr : raises = true
    · simp [batchBody, hr]
    · have hr' : raises = false := by simpa using hr
      have hstep : batchBody step ((d, raises) :: tl) st
          = batchBody step tl (step st d) := by
        simp [batchBody, hr']
      rw [hstep]
      apply ih
      obtain ⟨p, hp, hpt⟩ := h
      rcases List.mem_cons.mp hp with h1 | h1
      · exfalso; rw [h1] at hpt; simp at hpt; exact hr hpt
      · exact ⟨p, h1, hpt⟩

theorem withSession_error {committed : σ}
    {body : σ → Except Unit (σ × α)} (h : body committed = .error ()) :
    withSession committed body = (committed, .error ()) := by
  simp [withSession, h]

/-! ## Claim C1: the scheduler's full-vs-incremental decision -/

/-- C1 counterexample: the claim says the scheduler asks the SyncService
itself for the initial-sync-pending flag, but on a concrete cycle the
trace shows the flag query is invoked on the service's `repository`
attribute and no `is_initial_activity_log_sync_needed` call on the
service itself ever occurs. -/
theorem run_cycle_flag_receiver_cex :
    (run_cycle ⟨true, .ok ⟨true, 5, 100⟩, .ok ⟨true, 0, 0⟩⟩).1
      = [⟨CallTarget.serviceRepository,
          CallMethod.isInitialActivityLogSyncNeeded⟩,
         ⟨CallTarget.service, CallMethod.syncActivityLogFull⟩] ∧
    (⟨CallTarget.service, CallMethod.isInitialActivityLogSyncNeeded⟩ :
        SchedCall)
      ∉ (run_cycle ⟨true, .ok ⟨true, 5, 100⟩, .ok ⟨true, 0, 0⟩⟩).1 := by
  constructor
  · rfl
  · decide

/-- C1 (amended): on each cycle of the running loop the scheduler queries
`is_initial_activity_log_sync_needed()` on the SyncService's `repository`
attribute, then performs the full sync path when the flag is true and the
incremental path with a trailing window of 30 minutes otherwise. -/
theorem run_loop_calls_spec (envs : List CycleEnv) :
    run_loop_calls envs = envs.map fun env =>
      ⟨CallTarget.serviceRepository,
        CallMethod.isInitialActivityLogSyncNeeded⟩ ::
      (if env.initialNeeded then
        [⟨CallTarget.service, CallMethod.syncActivityLogFull⟩]
       else
        [⟨CallTarget.service, CallMethod.syncActivityLogIncremental 30⟩]) := by
  unfold run_loop_calls
  congr 1
  funext env
  by_cases h : env.initialNeeded <;> simp [run_cycle, h]

/-! ## Claim C3: batches are all-or-nothing -/

/-- C3: for each of `upsert_users`, `upsert_libraries` and `upsert_items`,
if any exception is raised while processing the batch, the session is
rolled back (the committed table is exactly the table before the call),
and the exception is re-raised to the caller — no row of the batch is
persisted. -/
theorem upsert_batch_all_or_nothing (now : Nat) :
    (∀ (db : List UserRow) (dicts : List (UserDict × Bool)),
        (∃ p ∈ dicts, p.2 = true) →
        upsert_users_tx now db dicts = (db, Except.error ())) ∧
    (∀ (db : List LibraryRow) (dicts : List (LibraryDict × Bool)),
        (∃ p ∈ dicts, p.2 = true) →
        upsert_libraries_tx now db dicts = (db, Except.error ())) ∧
    (∀ (db : List ItemRow) (dicts : List (ItemDict × Bool)),
        (∃ p ∈ dicts, p.2 = true) →
        upsert_items_tx now db dicts = (db, Except.error ())) := by
  refine ⟨?_, ?_, ?_⟩
  · intro db dicts h
    have hb := batchBody_error (upsertUsersStep now) dicts (db, 0) h
    simp [upsert_users_tx, withSession, hb, Except.map]
  · intro db dicts h
    have hb := batchBody_error (upsertLibrariesStep now) dicts (db, 0) h
    simp [upsert_libraries_tx, withSession, hb, Except.map]
  · intro db dicts h
    have hb := batchBody_error (upsertItemsStep now) dicts (db, 0) h
    simp [upsert_items_tx, withSession, hb, Except.map]

/-- Witness for C3 at concrete inputs: a one-row batch whose row raises
leaves each store unchanged and propagates the error. -/
theorem upsert_batch_all_or_nothing_witness :
    upsert_users_tx 5 [] [({ jellyfin_id := some "U1" }, true)]
      = ([], Except.error ()) ∧
    upsert_libraries_tx 5 [] [({ jellyfin_id := some "L1" }, true)]
      = ([], Except.error ()) ∧
    upsert_items_tx 5 []
        [({ jellyfin_id := some "I1", library_id := some 1 }, true)]
      = ([], Except.error ()) :=
  ⟨(upsert_batch_all_or_nothing 5).1 [] _
     ⟨({ jellyfin_id := some "U1" }, true), by simp, rfl⟩,
   (upsert_batch_all_or_nothing 5).2.1 [] _
     ⟨({ jellyfin_id := some "L1" }, true), by simp, rfl⟩,
   (upsert_batch_all_or_nothing 5).2.2 [] _
     ⟨({ jellyfin_id := some "I1", library_id := some 1 }, true), by simp,
      rfl⟩⟩

/-! ## Claim C9: the scheduler loop survives sync exceptions -/

/-- C9: when the sync attempt of some cycle raises, the loop logs the
caught exception for that cycle and still runs every earlier and every
later cycle — an exception from a sync call never terminates the loop
while the scheduler is running. -/
theorem run_loop_survives_error (pre post : List CycleEnv) (env : CycleEnv)
    (e : String) (he : cycleError env = some e) :
    run_loop (pre ++ env :: post)
      = run_loop pre ++ ("Scheduled sync error: " ++ e) :: run_loop post := by
  have ho : (if env.initialNeeded then env.fullOutcome
             else env.incrementalOutcome) = .error e := by
    unfold cycleError at he
    cases ho : (if env.initialNeeded then env.fullOutcome
                else env.incrementalOutcome) with
    | ok r => rw [ho] at he; simp at he
    | error e' => rw [ho] at he; simp at he; rw [he]
  unfold run_loop
  rw [List.map_append, List.map_cons]
  by_cases hin : env.initialNeeded
  · rw [if_pos hin] at ho
    simp [run_cycle, hin, ho]
  · have hin' : env.initialNeeded = false := by simpa using hin
    rw [if_neg (by simp [hin'])] at ho
    simp [run_cycle, hin', ho]

/-- Witness for C9: a three-cycle run whose middle cycle raises still
logs all three cycles, with the error logged in place. -/
theorem run_loop_survives_error_witness :
    run_loop [⟨false, .ok ⟨true, 1, 2⟩, .ok ⟨true, 3, 4⟩⟩,
              ⟨false, .ok ⟨true, 1, 2⟩, .error "boom"⟩,
              ⟨true, .ok ⟨true, 1, 2⟩, .ok ⟨true, 3, 4⟩⟩]
      = run_loop [⟨false, .ok ⟨true, 1, 2⟩, .ok ⟨true, 3, 4⟩⟩] ++
          ("Scheduled sync error: " ++ "boom") ::
          run_loop [⟨true, .ok ⟨true, 1, 2⟩, .ok ⟨true, 3, 4⟩⟩] :=
  run_loop_survives_error
    [⟨false, .ok ⟨true, 1, 2⟩, .ok ⟨true, 3, 4⟩⟩]
    [⟨true, .ok ⟨true, 1, 2⟩, .ok ⟨true, 3, 4⟩⟩]
    ⟨false, .ok ⟨true, 1, 2⟩, .error "boom"⟩ "boom" rfl

/-! ## Claim C10: insert_playback_events validates nothing -/

/-- C10: `insert_playback_events` appends exactly one row per input
dictionary and returns the input length; a dictionary missing `user_id`
or `item_id` yields a row with the empty string there rather than being
skipped or raising. -/
theorem insert_playback_events_unvalidated (now : Nat)
    (db : List ActivityRow) (dicts : List EventDict) :
    insert_playback_events now db dicts
      = (db ++ dicts.map (eventRowOf now), dicts.length) ∧
    (∀ d : EventDict, d.user_id = none → (eventRowOf now d).user_id = "") ∧
    (∀ d : EventDict, d.item_id = none → (eventRowOf now d).item_id = "") := by
  refine ⟨?_, ?_, ?_⟩
  · by_cases h : dicts.isEmpty
    · have h' : dicts = [] := by simpa using h
      subst h'
      simp [insert_playback_events]
    · have h' : dicts.isEmpty = false := by simpa using h
      unfold insert_playback_events
      rw [if_neg (by simp [h']), foldl_append_count]
      simp
  · intro d hd
    simp [eventRowOf, hd]
  · intro d hd
    simp [eventRowOf, hd]

/-- Witness for C10: one empty dictionary produces one row with empty
`user_id` and `item_id`. -/
theorem insert_playback_events_unvalidated_witness :
    insert_playback_events 7 [] [({} : EventDict)]
      = ([] ++ [({} : EventDict)].map (eventRowOf 7), 1) ∧
    (eventRowOf 7 ({} : EventDict)).user_id = "" ∧
    (eventRowOf 7 ({} : EventDict)).item_id = "" :=
  ⟨(insert_playback_events_unvalidated 7 [] [{}]).1,
   (insert_playback_events_unvalidated 7 [] [{}]).2.1 {} rfl,
   (insert_playback_events_unvalidated 7 [] [{}]).2.2 {} rfl⟩

/-! ## Claim C6: archive-missing semantics -/

theorem bool_eq_decide {b : Bool} {P : Prop} [Decidable P]
    (h : b = true ↔ P) : b = decide P := by
  by_cases hp : P
  · simp [hp, h.mpr hp]
  · have hb : b ≠ true := fun hb => hp (h.mp hb)
    simp only [decide_eq_false hp]
    simpa using hb

theorem userArchiveHit_iff (active : List String) (u : UserRow) :
    userArchiveHit active u = true ↔
      (u.archived = false ∧ u.jellyfin_id ∉ active) := by
  simp [userArchiveHit, and_comm]

theorem itemArchiveHit_iff (libId : Nat) (active : List String)
    (it : ItemRow) :
    itemArchiveHit libId active it = true ↔
      (it.library_id = libId ∧ it.archived = false ∧
        it.jellyfin_id ∉ active) := by
  simp [itemArchiveHit]
  tauto

/-- C6: `archive_missing_users` / `archive_missing_items` flip to
archived exactly the currently-non-archived rows (for items, only rows of
the given library's local id) whose external id is missing from the
supplied active set, return the number of rows flipped, and are a no-op
returning 0 on an empty active set, for every prior store state. -/
theorem archive_missing_spec (dbU : List UserRow) (dbI : List ItemRow)
    (libId : Nat) (active : List String) :
    (active ≠ [] →
      (archive_missing_users dbU active).1
        = dbU.map (fun u =>
            if u.archived = false ∧ u.jellyfin_id ∉ active then
              { u with archived := true }
            else u) ∧
      (archive_missing_users dbU active).2
        = dbU.countP (fun u =>
            decide (u.archived = false ∧ u.jellyfin_id ∉ active)) ∧
      (archive_missing_items dbI libId active).1
        = dbI.map (fun it =>
            if it.library_id = libId ∧ it.archived = false ∧
               it.jellyfin_id ∉ active then
              { it with archived := true }
            else it) ∧
      (archive_missing_items dbI libId active).2
        = dbI.countP (fun it =>
            decide (it.library_id = libId ∧ it.archived = false ∧
                    it.jellyfin_id ∉ active))) ∧
    archive_missing_users dbU [] = (dbU, 0) ∧
    archive_missing_items dbI libId [] = (dbI, 0) := by
  refine ⟨?_, ?_, ?_⟩
  · intro hne
    have hne' : active.isEmpty = false := by
      cases active with
      | nil => exact absurd rfl hne
      | cons a t => rfl
    refine ⟨?_, ?_, ?_, ?_⟩
    · unfold archive_missing_users
      rw [if_neg (by simp [hne'])]
      apply List.map_congr_left
      intro u _
      by_cases hu : u.archived = false ∧ u.jellyfin_id ∉ active
      · rw [if_pos ((userArchiveHit_iff active u).mpr hu), if_pos hu]
      · rw [if_neg (fun hc => hu ((userArchiveHit_iff active u).mp hc)),
          if_neg hu]
    · unfold archive_missing_users
      rw [if_neg (by simp [hne'])]
      exact congrArg dbU.countP
        (funext fun u => bool_eq_decide (userArchiveHit_iff active u))
    · unfold archive_missing_items
      rw [if_neg (by simp [hne'])]
      apply List.map_congr_left
      intro it _
      by_cases hit : it.library_id = libId ∧ it.archived = false ∧
          it.jellyfin_id ∉ active
      · rw [if_pos ((itemArchiveHit_iff libId active it).mpr hit),
          if_pos hit]
      · rw [if_neg (fun hc => hit ((itemArchiveHit_iff libId active it).mp hc)),
          if_neg hit]
    · unfold archive_missing_items
      rw [if_neg (by simp [hne'])]
      exact congrArg dbI.countP
        (funext fun it => bool_eq_decide (itemArchiveHit_iff libId active it))
  · rfl
  · rfl

/-- Witness for C6: a two-user store with one id active archives exactly
the other row, and the empty active set leaves everything alone. -/
theorem archive_missing_spec_witness :
    (archive_missing_users
        [{ jellyfin_id := "U1", name := "a", is_admin := false,
           total_plays := 0, archived := false, created_at := 1,
           updated_at := 1 },
         { jellyfin_id := "U2", name := "b", is_admin := false,
           total_plays := 0, archived := false, created_at := 1,
           updated_at := 1 }] ["U1"]).2
      = 1 ∧
    archive_missing_users
        [{ jellyfin_id := "U1", name := "a", is_admin := false,
           total_plays := 0, archived := false, created_at := 1,
           updated_at := 1 }] []
      = ([{ jellyfin_id := "U1", name := "a", is_admin := false,
            total_plays := 0, archived := false, created_at := 1,
            updated_at := 1 }], 0) := by
  constructor
  · rw [((archive_missing_spec
      [{ jellyfin_id := "U1", name := "a", is_admin := false,
         total_plays := 0, archived := false, created_at := 1,
         updated_at := 1 },
       { jellyfin_id := "U2", name := "b", is_admin := false,
         total_plays := 0, archived := false, created_at := 1,
         updated_at := 1 }] [] 0 ["U1"]).1 (by simp)).2.1]
    decide
  · exact (archive_missing_spec
      [{ jellyfin_id := "U1", name := "a", is_admin := false,
         total_plays := 0, archived := false, created_at := 1,
         updated_at := 1 }] [] 0 []).2.1

/-! ## Claim C8: complete_task_log semantics -/

/-- C8 counterexample: `complete_task_log` with a supplied but empty
detail dictionary does not serialize it — `log_json` stays unset, because
the code guards with Python truthiness (`if log_data:`), under which an
empty dict counts as absent. -/
theorem complete_task_log_empty_detail_cex :
    complete_task_log 20 (create_task_log 10 [] "sync" "SYNC" "manual").1
        1 "SUCCESS" (some [])
      = [{ id := 1, name := "sync", type := "SYNC",
           execution_type := "manual", started_at := 10,
           finished_at := some 20, duration_ms := 10000,
           result := "SUCCESS", log_json := none }] ∧
    complete_task_log 20 (create_task_log 10 [] "sync" "SYNC" "manual").1
        1 "SUCCESS" (some [])
      ≠ [{ id := 1, name := "sync", type := "SYNC",
           execution_type := "manual", started_at := 10,
           finished_at := some 20, duration_ms := 10000,
           result := "SUCCESS", log_json := some (jsonDumps []) }] := by
  constructor
  · rfl
  · decide

/-- C8 (amended): `complete_task_log` with an unknown id is a silent
no-op; with an existing id it sets `finished_at` to now, computes
`duration_ms = (finished_at - started_at) * 1000`, sets the supplied
result, and serializes supplied non-empty detail into `log_json` (a
supplied empty detail dict, like absent detail, leaves `log_json`
unchanged). -/
theorem complete_task_log_spec (now : Nat) (db : List TaskLogRow)
    (taskId : Nat) (result : String)
    (logData : Option (List (String × Int))) :
    (db.find? (fun t => t.id == taskId) = none →
      complete_task_log now db taskId result logData = db) ∧
    (∀ t, db.find? (fun t => t.id == taskId) = some t →
      (complete_task_log now db taskId result logData).find?
          (fun s => s.id == taskId)
        = some { t with
                 finished_at := some now
                 duration_ms := ((now : Int) - (t.started_at : Int)) * 1000
                 result := result
                 log_json :=
                   if truthyDict logData then
                     some (jsonDumps (logData.getD []))
                   else t.log_json }) := by
  constructor
  · intro h
    simp [complete_task_log, h]
  · intro t ht
    have hred : complete_task_log now db taskId result logData
        = updateFirst (fun s => s.id == taskId)
            (fun s =>
              { s with
                finished_at := some now
                duration_ms := ((now : Int) - (s.started_at : Int)) * 1000
                result := result
                log_json :=
                  if truthyDict logData then
                    some (jsonDumps (logData.getD []))
                  else s.log_json }) db := by
      unfold complete_task_log
      rw [ht]
    rw [hred, find?_updateFirst ?_ db, ht]
    · rfl
    · intro x hx
      exact hx

/-- Witness for C8: completing an unknown id changes nothing; completing
the freshly created RUNNING row sets the terminal fields and serializes
the supplied detail. -/
theorem complete_task_log_spec_witness :
    complete_task_log 20 (create_task_log 10 [] "sync" "SYNC" "manual").1
        99 "SUCCESS" none
      = (create_task_log 10 [] "sync" "SYNC" "manual").1 ∧
    (complete_task_log 20 (create_task_log 10 [] "sync" "SYNC" "manual").1
        1 "SUCCESS" (some [("n", 3)])).find? (fun s => s.id == 1)
      = some { id := 1, name := "sync", type := "SYNC",
               execution_type := "manual", started_at := 10,
               finished_at := some 20, duration_ms := 10000,
               result := "SUCCESS", log_json := some (jsonDumps [("n", 3)]) } := by
  constructor
  · exact (complete_task_log_spec 20
      (create_task_log 10 [] "sync" "SYNC" "manual").1 99 "SUCCESS" none).1
      rfl
  · have h := (complete_task_log_spec 20
      (create_task_log 10 [] "sync" "SYNC" "manual").1 1 "SUCCESS"
      (some [("n", 3)])).2
      { id := 1, name := "sync", type := "SYNC",
        execution_type := "manual", started_at := 10, finished_at := none,
        duration_ms := 0, result := "RUNNING", log_json := none } rfl
    simpa using h

/-! ## Claim C2: the RUNNING-to-terminal transition -/

/-- C2 counterexample: a second `complete_task_log` call on the same id
is a later repository operation that changes the row's `result`,
`finished_at` and `duration_ms` again after a terminal result was set. -/
theorem task_log_recompletion_cex :
    ((complete_task_log 20
        (create_task_log 10 [] "sync" "SYNC" "manual").1
        1 "SUCCESS" none).find? (fun t => t.id == 1)).map
        (fun t => (t.result, t.finished_at, t.duration_ms))
      = some ("SUCCESS", some 20, 10000) ∧
    ((complete_task_log 30
        (complete_task_log 20
          (create_task_log 10 [] "sync" "SYNC" "manual").1
          1 "SUCCESS" none)
        1 "FAILED" none).find? (fun t => t.id == 1)).map
        (fun t => (t.result, t.finished_at, t.duration_ms))
      = some ("FAILED", some 30, 20000) := by
  constructor
  · rfl
  · rfl

/-- C2 (amended): `complete_task_log` does not guard against
re-completion — a second call on the same id overwrites `result`,
`finished_at` and `duration_ms` again.  The RUNNING-to-terminal
transition is exactly-once only in the sense that no task-log repository
operation other than a `complete_task_log` aimed at that id ever changes
the row. -/
theorem task_log_row_stable_unless_recompleted (db : List TaskLogRow)
    (u : TaskLogRow) (op : TaskOp)
    (hfind : db.find? (fun t => t.id == u.id) = some u)
    (hop : opCompletes op u.id = false) :
    (applyTaskOp db op).find? (fun t => t.id == u.id) = some u := by
  cases op with
  | create now n ty ex =>
    simp only [applyTaskOp, create_task_log]
    exact find?_append_some _ hfind
  | complete now taskId r l =>
    have hid : (taskId == u.id) = false := by
      simpa [opCompletes] using hop
    simp only [applyTaskOp]
    unfold complete_task_log
    cases hf : db.find? (fun t => t.id == taskId) with
    | none => exact hfind
    | some t0 =>
      rw [find?_updateFirst_disjoint ?_ ?_ db, hfind]
      · intro x hx
        have hx' : x.id = taskId := by simpa using hx
        have : taskId ≠ u.id := by simpa using hid
        simp [hx', this]
      · intro x
        rfl

/-- Witness for C2 (amended): after a row reaches `SUCCESS`, creating
another task log leaves the completed row intact. -/
theorem task_log_row_stable_witness :
    (applyTaskOp
        (complete_task_log 20
          (create_task_log 10 [] "sync" "SYNC" "manual").1
          1 "SUCCESS" none)
        (.create 40 "other" "SYNC" "scheduled")).find?
        (fun t => t.id == 1)
      = some { id := 1, name := "sync", type := "SYNC",
               execution_type := "manual", started_at := 10,
               finished_at := some 20, duration_ms := 10000,
               result := "SUCCESS", log_json := none } :=
  task_log_row_stable_unless_recompleted
    (complete_task_log 20
      (create_task_log 10 [] "sync" "SYNC" "manual").1 1 "SUCCESS" none)
    { id := 1, name := "sync", type := "SYNC", execution_type := "manual",
      started_at := 10, finished_at := some 20, duration_ms := 10000,
      result := "SUCCESS", log_json := none }
    (.create 40 "other" "SYNC" "scheduled") rfl rfl

/-! ## Claim C5: partial-update semantics of upsert -/

/-- C5: upserting a dictionary whose external id matches an existing
user row overwrites `name`/`is_admin` only from present fields (absent
fields keep the stored value, via `Option.getD`), always forces
`archived = false`, bumps `updated_at` to now, and leaves
`created_at`, `jellyfin_id` and `total_plays` untouched. -/
theorem upsert_users_partial_update (now : Nat) (db : List UserRow)
    (d : UserDict) (jf : String) (u : UserRow)
    (hjf : d.jellyfin_id = some jf) (hne : jf ≠ "")
    (hfind : db.find? (fun r => r.jellyfin_id == jf) = some u) :
    ∃ u', (upsert_users now db [d]).1.find? (fun r => r.jellyfin_id == jf)
        = some u' ∧
      u'.name = d.name.getD u.name ∧
      u'.is_admin = d.is_admin.getD u.is_admin ∧
      u'.archived = false ∧
      u'.updated_at = now ∧
      u'.created_at = u.created_at ∧
      u'.jellyfin_id = u.jellyfin_id ∧
      u'.total_plays = u.total_plays := by
  have hb : (jf == "") = false := by simp [hne]
  have h1 : upsert_users now db [d]
      = (updateFirst (fun r => r.jellyfin_id == jf) (applyUserDict now d) db,
         1) := by
    simp [upsert_users, upsertUsersStep, hjf, hb, hfind]
  refine ⟨applyUserDict now d u, ?_, rfl, rfl, rfl, rfl, rfl, rfl, rfl⟩
  rw [h1]
  show (updateFirst (fun r => r.jellyfin_id == jf) (applyUserDict now d)
      db).find? (fun r => r.jellyfin_id == jf) = _
  rw [find?_updateFirst ?_ db, hfind]
  · rfl
  · intro x hx
    exact hx

/-- Witness for C5, the spec's own example: upserting
`{jellyfin_id: "U1", name: "New"}` over a row with `is_admin = true`
leaves `is_admin = true`, renames, unarchives and bumps `updated_at`. -/
theorem upsert_users_partial_update_witness :
    ∃ u', (upsert_users 5
        [{ jellyfin_id := "U1", name := "Old", is_admin := true,
           total_plays := 0, archived := false, created_at := 1,
           updated_at := 1 }]
        [{ jellyfin_id := some "U1", name := some "New" }]).1.find?
          (fun r => r.jellyfin_id == "U1")
        = some u' ∧
      u'.name = "New" ∧ u'.is_admin = true ∧ u'.archived = false ∧
      u'.updated_at = 5 ∧ u'.created_at = 1 := by
  obtain ⟨u', h1, h2, h3, h4, h5, h6, -, -⟩ :=
    upsert_users_partial_update 5
      [{ jellyfin_id := "U1", name := "Old", is_admin := true,
         total_plays := 0, archived := false, created_at := 1,
         updated_at := 1 }]
      { jellyfin_id := some "U1", name := some "New" } "U1"
      { jellyfin_id := "U1", name := "Old", is_admin := true,
        total_plays := 0, archived := false, created_at := 1,
        updated_at := 1 }
      rfl (by decide) rfl
  exact ⟨u', h1, by simpa using h2, by simpa using h3, h4, h5, h6⟩

/-! ## Claim C7: stats refreshes -/

/-- C7: after `refresh_item_play_counts` every item's `play_count` is the
number of PlaybackActivity rows whose item external id matches (and
likewise `total_plays` for users), and `refresh_all_stats` runs the three
refreshes against the one supplied session, returning the total row count
per entity kind regardless of which rows had nonzero events. -/
theorem stats_refresh_spec (db : StatsDB) :
    (refresh_item_play_counts db).1.items
      = db.items.map (fun it =>
          { it with play_count :=
              (db.activities.filter
                (fun a => a.item_id == it.jellyfin_id)).length }) ∧
    (refresh_item_play_counts db).2 = db.items.length ∧
    (refresh_user_play_counts db).1.users
      = db.users.map (fun u =>
          { u with total_plays :=
              (db.activities.filter
                (fun a => a.user_id == u.jellyfin_id)).length }) ∧
    (refresh_all_stats db).2
      = (db.users.length, db.items.length, db.libraries.length) := by
  refine ⟨?_, ?_, ?_, ?_⟩ <;>
    simp [refresh_item_play_counts, refresh_user_play_counts,
      refresh_library_play_counts, refresh_all_stats, foldl_append_count,
      countItemPlays, countUserPlays]

/-! ## Claim C4: idempotent upsert -/

theorem truthy_exists {d : UserDict} (h : truthyStr d.jellyfin_id = true) :
    ∃ jf, d.jellyfin_id = some jf ∧ (jf == "") = false := by
  cases hd : d.jellyfin_id with
  | none => rw [hd] at h; simp [truthyStr] at h
  | some s =>
    refine ⟨s, rfl, ?_⟩
    rw [hd] at h
    simpa [truthyStr] using h

/-- First pass of repeated upserting: over a table whose rows all have
ids disjoint from the batch, every dictionary of the batch inserts its
fresh row, in batch order. -/
theorem upsert_insert_pass (t : Nat) :
    ∀ (dicts : List UserDict) (pre : List UserRow) (k : Nat),
      (∀ d ∈ dicts, truthyStr d.jellyfin_id = true) →
      (dicts.map dictId).Nodup →
      (∀ d ∈ dicts, ∀ r ∈ pre, r.jellyfin_id ≠ dictId d) →
      dicts.foldl (upsertUsersStep t) (pre, k)
        = (pre ++ dicts.map (canonUser t t), k + dicts.length) := by
  intro dicts
  induction dicts with
  | nil =>
    intro pre k _ _ _
    simp
  | cons d rest ih =>
    intro pre k htr hnd hdisj
    obtain ⟨jf, hjf, hne⟩ := truthy_exists (htr d (by simp))
    have hdict : dictId d = jf := by simp [dictId, hjf]
    have hfind : pre.find? (fun u => u.jellyfin_id == jf) = none := by
      apply List.find?_eq_none.mpr
      intro r hr
      have hr' := hdisj d (by simp) r hr
      rw [hdict] at hr'
      simp [hr']
    have hstep : upsertUsersStep t (pre, k) d
        = (pre ++ [newUserRow t jf d], k + 1) := by
      simp [upsertUsersStep, hjf, hne, hfind]
    have hcanon : newUserRow t jf d = canonUser t t d := by
      simp [newUserRow, canonUser, dictId, hjf]
    have hnd' : (rest.map dictId).Nodup := by
      have : (dictId d :: rest.map dictId).Nodup := by simpa using hnd
      exact (List.nodup_cons.mp this).2
    have hdnotin : dictId d ∉ rest.map dictId := by
      have : (dictId d :: rest.map dictId).Nodup := by simpa using hnd
      exact (List.nodup_cons.mp this).1
    rw [List.foldl_cons, hstep, hcanon,
      ih (pre ++ [canonUser t t d]) (k + 1)
        (fun d' hd' => htr d' (by simp [hd']))
        hnd'
        ?_]
    · rw [Prod.mk.injEq]
      refine ⟨by simp, by simp only [List.length_cons]; omega⟩
    · intro d' hd' r hr
      rcases List.mem_append.mp hr with hpre | hc
      · exact hdisj d' (by simp [hd']) r hpre
      · have hc' : r = canonUser t t d := by simpa using hc
        rw [hc']
        show dictId d ≠ dictId d'
        intro heq
        exact hdnotin (heq ▸ List.mem_map_of_mem dictId hd')

/-- The found-branch update applied to a canonical row is the canonical
row with the touch time advanced. -/
theorem applyUserDict_canon (t' c u0 : Nat) (d : UserDict) :
    applyUserDict t' d (canonUser c u0 d) = canonUser c t' d := by
  cases hn : d.name <;> cases ha : d.is_admin <;>
    simp [applyUserDict, canonUser, hn, ha]

/-- Later passes of repeated upserting: over a table that is already the
canonical image of the batch (prefixed by disjoint rows), every
dictionary updates its own row in place, only advancing `updated_at`. -/
theorem upsert_update_pass (t' c u0 : Nat) :
    ∀ (dicts : List UserDict) (pre : List UserRow) (k : Nat),
      (∀ d ∈ dicts, truthyStr d.jellyfin_id = true) →
      (dicts.map dictId).Nodup →
      (∀ d ∈ dicts, ∀ r ∈ pre, r.jellyfin_id ≠ dictId d) →
      dicts.foldl (upsertUsersStep t')
          (pre ++ dicts.map (canonUser c u0), k)
        = (pre ++ dicts.map (canonUser c t'), k + dicts.length) := by
  intro dicts
  induction dicts with
  | nil =>
    intro pre k _ _ _
    simp
  | cons d rest ih =>
    intro pre k htr hnd hdisj
    obtain ⟨jf, hjf, hne⟩ := truthy_exists (htr d (by simp))
    have hdict : dictId d = jf := by simp [dictId, hjf]
    have hcanonid : (canonUser c u0 d).jellyfin_id = jf := by
      simp [canonUser, dictId, hjf]
    have hprenone :
        pre.find? (fun u => u.jellyfin_id == jf) = none := by
      apply List.find?_eq_none.mpr
      intro r hr
      have hr' := hdisj d (by simp) r hr
      rw [hdict] at hr'
      simp [hr']
    have hconsfind :
        (canonUser c u0 d :: rest.map (canonUser c u0)).find?
            (fun u => u.jellyfin_id == jf)
          = some (canonUser c u0 d) := by
      simp [List.find?_cons_of_pos, hcanonid]
    have hpredisj : ∀ r ∈ pre,
        (fun u => u.jellyfin_id == jf) r = false := by
      intro r hr
      have hr' := hdisj d (by simp) r hr
      rw [hdict] at hr'
      simp [hr']
    have hupd :
        updateFirst (fun u => u.jellyfin_id == jf) (applyUserDict t' d)
            (pre ++ canonUser c u0 d :: rest.map (canonUser c u0))
          = pre ++ canonUser c t' d :: rest.map (canonUser c u0) := by
      rw [updateFirst_append_left _ hpredisj,
        updateFirst_cons_pos _ (by simp [hcanonid]),
        applyUserDict_canon]
    have hstep :
        upsertUsersStep t' (pre ++ (d :: rest).map (canonUser c u0), k) d
          = (pre ++ canonUser c t' d :: rest.map (canonUser c u0),
             k + 1) := by
      simp [upsertUsersStep, hjf, hne, hprenone, hconsfind, hupd]
    have hnd' : (rest.map dictId).Nodup := by
      have h0 : (dictId d :: rest.map dictId).Nodup := by simpa using hnd
      exact (List.nodup_cons.mp h0).2
    have hdnotin : dictId d ∉ rest.map dictId := by
      have h0 : (dictId d :: rest.map dictId).Nodup := by simpa using hnd
      exact (List.nodup_cons.mp h0).1
    have hassoc :
        pre ++ canonUser c t' d :: rest.map (canonUser c u0)
          = (pre ++ [canonUser c t' d]) ++ rest.map (canonUser c u0) := by
      simp
    rw [List.foldl_cons, hstep, hassoc,
      ih (pre ++ [canonUser c t' d]) (k + 1)
        (fun d' hd' => htr d' (by simp [hd']))
        hnd'
        ?_]
    · rw [Prod.mk.injEq]
      refine ⟨by simp, by simp only [List.length_cons]; omega⟩
    · intro d' hd' r hr
      rcases List.mem_append.mp hr with hpre | hc
      · exact hdisj d' (by simp [hd']) r hpre
      · have hc' : r = canonUser c t' d := by simpa using hc
        rw [hc']
        show dictId d ≠ dictId d'
        intro heq
        exact hdnotin (heq ▸ List.mem_map_of_mem dictId hd')

/-- Repeated identical upsert calls leave the table in canonical form:
`created_at` from the first call, `updated_at` from the last. -/
theorem upsert_users_repeat_canonical (dicts : List UserDict)
    (htr : ∀ d ∈ dicts, truthyStr d.jellyfin_id = true)
    (hnd : (dicts.map dictId).Nodup) :
    ∀ ts : List Nat, ts ≠ [] →
      ts.foldl (fun db t => (upsert_users t db dicts).1) []
        = dicts.map (canonUser (ts.head?.getD 0) (ts.getLast?.getD 0)) := by
  intro ts
  induction ts using List.reverseRecOn with
  | nil => intro h; exact absurd rfl h
  | append_singleton l t ih =>
    intro _
    rw [List.foldl_append]
    simp only [List.foldl_cons, List.foldl_nil]
    by_cases hl : l = []
    · subst hl
      simp only [List.foldl_nil, List.nil_append]
      by_cases hd : dicts.isEmpty
      · have hd0 : dicts = [] := by simpa using hd
        subst hd0
        simp [upsert_users]
      · have hd' : dicts.isEmpty = false := by simpa using hd
        unfold upsert_users
        rw [if_neg (by simp [hd']),
          upsert_insert_pass t dicts [] 0 htr hnd
            (by intro d _ r hr; cases hr)]
        simp
    · rw [ih hl]
      have hh : (l ++ [t]).head? = l.head? := by
        cases l with
        | nil => exact absurd rfl hl
        | cons a t' => simp
      have hlast : (l ++ [t]).getLast? = some t := List.getLast?_concat l
      by_cases hd : dicts.isEmpty
      · have hd0 : dicts = [] := by simpa using hd
        subst hd0
        simp [upsert_users]
      · have hd' : dicts.isEmpty = false := by simpa using hd
        unfold upsert_users
        rw [if_neg (by simp [hd'])]
        have hpass := upsert_update_pass t (l.head?.getD 0)
          (l.getLast?.getD 0) dicts [] 0 htr hnd
          (by intro d _ r hr; cases hr)
        rw [List.nil_append] at hpass
        rw [hpass, hh, hlast]
        simp

/-- C4: calling `upsert_users` with one list of dictionaries having
distinct, present external ids, any number of times at successive
timestamps, leaves the row count equal to the number of distinct external
ids, every row's `created_at` equal to the first call's time (the value
set at first insertion), and every row's `updated_at` equal to the latest
call's time. -/
theorem upsert_users_idempotent (dicts : List UserDict) (ts : List Nat)
    (htr : ∀ d ∈ dicts, truthyStr d.jellyfin_id = true)
    (hnd : (dicts.map dictId).Nodup)
    (hts : ts ≠ []) :
    ts.foldl (fun db t => (upsert_users t db dicts).1) []
        = dicts.map (canonUser (ts.head?.getD 0) (ts.getLast?.getD 0)) ∧
    (ts.foldl (fun db t => (upsert_users t db dicts).1) []).length
        = dicts.length ∧
    ∀ u ∈ ts.foldl (fun db t => (upsert_users t db dicts).1) [],
      u.created_at = ts.head?.getD 0 ∧
      u.updated_at = ts.getLast?.getD 0 := by
  have heq := upsert_users_repeat_canonical dicts htr hnd ts hts
  refine ⟨heq, by rw [heq]; simp, ?_⟩
  intro u hu
  rw [heq] at hu
  obtain ⟨d, -, hud⟩ := List.mem_map.mp hu
  rw [← hud]
  exact ⟨rfl, rfl⟩

/-- Witness for C4: upserting the same two-user batch three times (at
times 100, 200, 300) yields two rows created at 100 and last updated at
300. -/
theorem upsert_users_idempotent_witness :
    [100, 200, 300].foldl
        (fun db t => (upsert_users t db
          [{ jellyfin_id := some "U1", name := some "Alice",
             is_admin := some true },
           { jellyfin_id := some "U2" }]).1) []
        = [{ jellyfin_id := some "U1", name := some "Alice",
             is_admin := some true },
           ({ jellyfin_id := some "U2" } : UserDict)].map
            (canonUser 100 300) ∧
    ([100, 200, 300].foldl
        (fun db t => (upsert_users t db
          [{ jellyfin_id := some "U1", name := some "Alice",
             is_admin := some true },
           { jellyfin_id := some "U2" }]).1) []).length = 2 ∧
    ∀ u ∈ [100, 200, 300].foldl
        (fun db t => (upsert_users t db
          [{ jellyfin_id := some "U1", name := some "Alice",
             is_admin := some true },
           { jellyfin_id := some "U2" }]).1) [],
      u.created_at = 100 ∧ u.updated_at = 300 :=
  upsert_users_idempotent
    [{ jellyfin_id := some "U1", name := some "Alice",
       is_admin := some true },
     { jellyfin_id := some "U2" }]
    [100, 200, 300] (by decide) (by decide) (by decide)

end Borealis
